import Mathlib

/-!
# Verification of the botfw notification scheduler and configuration pipeline

Shallow embedding of the scheduling, configuration and supervision code of
the `botfw` repository (Rust).  Timestamps (`chrono::DateTime<Utc>`) are
modelled as `Int`, the signed number of whole seconds since an arbitrary
epoch; the schedules in this code are minute-granularity, and every claim
below is stated and decided at one-second granularity.  `std::time::Duration`
values (which in the code are always whole seconds after the code's own
`Duration::from_secs(d.as_secs())` rounding) are modelled as `Nat`.
Machine integers (`u8`, `u32`) are modelled as `Nat` with explicit
`% 2^32` where the code can overflow.
-/

namespace Botfw

/-- Seconds in a minute/hour/day, used by the `chrono` arithmetic. -/
def secsPerDay : Int := 86400

/-- `src/config/time.rs`: `SpecificTime { hour: u8, minutes: u8 }`.
The constructors (`SpecificTime::new`, `TryFrom<SpecificTimeFormat>`) do not
validate the ranges, so any `u8` values can occur. -/
structure SpecificTime where
  hour : Nat
  minutes : Nat
deriving DecidableEq, Repr

/-- `src/config/time.rs`: the `NotificationTime` enum — a recurring delta
(`delta_hours`/`delta_minutes`, both `u32`, defaulting to 0) or a fixed
daily clock time. -/
inductive NotificationTime where
  | delta (delta_hours delta_minutes : Nat)
  | specific (t : SpecificTime)
deriving DecidableEq, Repr

/-- Time-of-day in seconds, in `[0, 86400)`: the `chrono` field extraction
underlying `with_hour`/`with_minute` on a `DateTime<Utc>`. -/
def timeOfDay (t : Int) : Int := t % secsPerDay

/-- Midnight of the calendar day (UTC) containing `t`. -/
def dayStart (t : Int) : Int := t - timeOfDay t

/-- The calendar-day index of an instant (days since the epoch day). -/
def dayIndex (t : Int) : Int := t / secsPerDay

/-- The hour component (0..23) of an instant. -/
def hourOf (t : Int) : Int := timeOfDay t / 3600

/-- The minute component (0..59) of an instant. -/
def minuteOf (t : Int) : Int := (timeOfDay t % 3600) / 60

/-- The minute-of-day (0..1439) of an instant. -/
def minuteOfDay (t : Int) : Int := timeOfDay t / 60

/-- `chrono`'s `DateTime::with_hour h`: replaces the hour, keeping the day
and the minute/second; returns `None` (here: the unchanged input, matching
the code's `unwrap_or(estimation)`) when `h ≥ 24`. -/
def withHourOr (h : Nat) (t : Int) : Int :=
  if h < 24 then dayStart t + h * 3600 + timeOfDay t % 3600 else t

/-- `chrono`'s `DateTime::with_minute m` composed with the code's
`unwrap_or`: replaces the minute, keeping day, hour and second; the
unchanged input when `m ≥ 60`. -/
def withMinuteOr (m : Nat) (t : Int) : Int :=
  if m < 60 then dayStart t + (timeOfDay t / 3600) * 3600 + m * 60 + timeOfDay t % 60 else t

/-- The delta period in minutes as the code computes it:
`delta_minutes + delta_hours * 60` in `u32` arithmetic (wrapping). -/
def deltaPeriodMinutes (dh dm : Nat) : Nat := (dm + dh * 60) % 2 ^ 32

namespace NotificationTime

/-- `src/config/time.rs::NotificationTime::when_next` — the modular-arithmetic
scheduler.  For a delta rule: period in seconds; if zero, return `now`;
otherwise `passed = (now - start_time).num_seconds().abs() % secs_period`
and the result is `now - passed + delta`.  For a fixed daily time: set
hour then minute on `now` (each falling back to the unchanged value when out
of range) and add one day if the result is strictly before `now`. -/
def when_next (nt : NotificationTime) (start_time now : Int) : Int :=
  match nt with
  | .delta dh dm =>
      let secs_period : Int := (deltaPeriodMinutes dh dm : Int) * 60
      if secs_period = 0 then now
      else
        let passed : Int := ((now - start_time).natAbs : Int) % secs_period
        now - passed + secs_period
  | .specific t =>
      let estimation := withHourOr t.hour now
      let estimation := withMinuteOr t.minutes estimation
      if estimation < now then estimation + secsPerDay else estimation

end NotificationTime

/-- The delta loop of `src/botscript.rs::NotificationTime::when_next`
(lines 637–645): starting from `start_time`, add the period until the
estimate is `≥ now + 1s`.  The loop in the source has no bound; `fuel`
makes the recursion structural, `none` meaning the loop has not finished
within `fuel` iterations (for a zero period and `start < now + 1` it never
finishes). -/
def botDeltaLoop (p now : Int) : Int → Nat → Option Int
  | _, 0 => none
  | est, fuel + 1 => if est < now + 1 then botDeltaLoop p now (est + p) fuel else some est

/-- The fixed-time loop of `src/botscript.rs::NotificationTime::when_next`
(lines 653–660): add whole days until the estimate is `≥ now`. -/
def botSpecificLoop (now : Int) : Int → Nat → Option Int
  | _, 0 => none
  | est, fuel + 1 => if est < now then botSpecificLoop now (est + secsPerDay) fuel else some est

/-- `src/botscript.rs::NotificationTime::when_next` — the loop-based
scheduler coexisting with the modular one, fuelled. -/
def botWhenNext (nt : NotificationTime) (start_time now : Int) (fuel : Nat) : Option Int :=
  match nt with
  | .delta dh dm =>
      let p : Int := (deltaPeriodMinutes dh dm : Int) * 60
      botDeltaLoop p now start_time fuel
  | .specific t =>
      let estimation := withHourOr t.hour now
      let estimation := withMinuteOr t.minutes estimation
      botSpecificLoop now estimation fuel

/-- `src/config/notification/mod.rs::NotificationFilter` — recipient filter of
a rule: everyone, N random users, or a script function (modelled as an opaque
handle identifier). -/
inductive NotificationFilter where
  | all
  | random (n : Nat)
  | botFunction (f : Nat)
deriving DecidableEq, Repr

/-- `src/config/notification/mod.rs::NotificationMessage` — message source of
a rule: a literal key, inline text, or a script function (opaque handle). -/
inductive NotificationMessage where
  | literal (l : String)
  | text (s : String)
  | botFunction (f : Nat)
deriving DecidableEq, Repr

/-- `src/config/notification/mod.rs::BotNotification` — one notification rule:
a firing-time specification, a recipient filter and a message source. -/
structure BotNotification where
  time : NotificationTime
  filter : NotificationFilter
  message : NotificationMessage
deriving DecidableEq, Repr

/-- `chrono::TimeDelta::to_std`: converts a signed duration to an unsigned
one, failing when it is negative. -/
def timeDeltaToStd (d : Int) : Option Nat :=
  if d < 0 then none else some d.toNat

namespace BotNotification

/-- `src/config/notification/mod.rs::BotNotification::left_time`:
`(when_next - now).to_std().unwrap_or(0)` rounded down to whole seconds
(rounding is the identity at the model's one-second granularity). -/
def left_time (r : BotNotification) (start_time now : Int) : Nat :=
  let next := r.time.when_next start_time now
  (timeDeltaToStd (next - now)).getD 0

end BotNotification

/-- `src/config/mod.rs::BotConfig` — the version/timezone block.  The
`version: f64` field is irrelevant to every claim and kept as an opaque
numerator-free marker (`Unit`) to avoid floating point in the model. -/
structure BotConfig where
  version : Unit
  timezone : Int           -- `i8`, hours relative to UTC
deriving Repr

/-- `src/config/dialog/message.rs::BotMessage` — per command/button message
definition.  The keyboard definition is structurally irrelevant to the
claims and kept opaque; the handler is an opaque function handle. -/
structure BotMessage where
  literal : Option String
  replace : Bool
  buttons : Option Unit
  state : Option String
  meta : Option Bool
  handler : Option Nat
deriving DecidableEq, Repr

namespace BotMessage

/-- `src/config/dialog/message.rs::BotMessage::fill_literal`:
`literal = self.literal.or(Some(l))`, other fields unchanged. -/
def fill_literal (bm : BotMessage) (l : String) : BotMessage :=
  { bm with literal := bm.literal.or (some l) }

/-- `src/config/dialog/message.rs::BotMessage::update_defaults`: when `meta`
is unset and the literal is `"start"`, default `meta` to `true`. -/
def update_defaults (bm : BotMessage) : BotMessage :=
  match bm.meta with
  | some _ => bm
  | none =>
      match bm.literal with
      | some l => if l = "start" then { bm with meta := some true } else bm
      | none => bm

end BotMessage

/-- `src/config/dialog/mod.rs::BotDialog` — the command/button/stateful maps.
`HashMap<String, BotMessage>` is modelled as an association list queried with
`List.lookup`. -/
structure BotDialog where
  commands : List (String × BotMessage)
  buttons : List (String × BotMessage)
  stateful_msg_handlers : List (String × BotMessage)
  variants : List (String × List (String × BotMessage))
deriving Repr

/-- `src/config/mod.rs::RunnerConfig` — the root typed configuration. -/
structure RunnerConfig where
  config : BotConfig
  dialog : BotDialog
  notifications : List BotNotification
  created_at : Int
deriving Repr

namespace RunnerConfig

/-- `src/config/mod.rs::RunnerConfig::get_command_message`. -/
def get_command_message (rc : RunnerConfig) (command : String) : Option BotMessage :=
  (rc.dialog.commands.lookup command).map
    (fun bm => (bm.fill_literal command).update_defaults)

/-- `src/config/mod.rs::RunnerConfig::timezoned_time`: shift an instant by
the configured whole-hour UTC offset. -/
def timezoned_time (rc : RunnerConfig) (dt : Int) : Int :=
  dt + rc.config.timezone * 3600

/-- `src/config/mod.rs::RunnerConfig::created_at()` — creation time shifted
into the configured timezone. -/
def createdAtTz (rc : RunnerConfig) : Int := rc.timezoned_time rc.created_at

end RunnerConfig

/-- The body of `src/config/mod.rs::RunnerConfig::get_nearest_notifications`
after both timestamps have been shifted into the configured timezone:
keep the rules whose `left_time` exceeds one second, sort them by
`left_time` (itertools `sorted_by_key`, a stable sort — modelled by the
stable `List.insertionSort`), take the first as the minimum, and collect
every rule tying that minimum.  Returns the batch `(wait_for, rules)` or
`none`. -/
def nearestNotifications (rules : List BotNotification) (start_time now : Int) :
    Option (Nat × List BotNotification) :=
  let ordered := (rules.filter fun f => 1 < f.left_time start_time now).insertionSort
      (fun a b => a.left_time start_time now ≤ b.left_time start_time now)
  match ordered with
  | [] => none
  | notification :: _ =>
      let left := notification.left_time start_time now
      some (left, ordered.filter fun n => n.left_time start_time now = left)

/-- `src/config/mod.rs::RunnerConfig::get_nearest_notifications`, with the
wall clock (`chrono::offset::Utc::now()`) passed explicitly. -/
def RunnerConfig.get_nearest_notifications (rc : RunnerConfig) (utcNow : Int) :
    Option (Nat × List BotNotification) :=
  nearestNotifications rc.notifications rc.createdAtTz (rc.timezoned_time utcNow)

/-! ## Function-injecting deserializer (`src/botscript.rs`, `src/utils/parcelable.rs`)

`quickjs` values and functions are opaque engine handles; live `JsFunction`
handles are modelled as opaque `Nat` identifiers. -/

/-- `src/botscript.rs::FunctionMarker` — a live engine function handle or the
inert name/placeholder string that structural deserialization produces. -/
inductive FunctionMarker where
  | function (f : Nat)
  | strTemplate (s : String)
deriving DecidableEq, Repr

/-- `src/botscript.rs::BotFunction` — wraps a `FunctionMarker`. -/
structure BotFunction where
  func : FunctionMarker
deriving DecidableEq, Repr

/-- `src/botscript.rs::ScriptError`, reduced to the variants the modelled
code produces. -/
inductive ScriptError where
  | botFunctionError (msg : String)
  | engineError (e : Nat)
deriving DecidableEq, Repr

/-- `src/botscript.rs::BotFunction::call_args`: calling the function with
arguments.  A live handle defers to the engine (an oracle `callEnv` mapping
handle and arguments to the engine's answer); a `StrTemplate` placeholder
fails with `BotFunctionError("Js Function is not defined")`. -/
def BotFunction.call_args (bf : BotFunction)
    (callEnv : Nat → List Nat → Except ScriptError Nat) (args : List Nat) :
    Except ScriptError Nat :=
  match bf.func with
  | .function f => callEnv f args
  | .strTemplate _ => .error (.botFunctionError "Js Function is not defined")

/-- `src/botscript.rs::BotFunction::call` = `call_args` with no arguments. -/
def BotFunction.call (bf : BotFunction)
    (callEnv : Nat → List Nat → Except ScriptError Nat) : Except ScriptError Nat :=
  bf.call_args callEnv []

/-- `src/utils/parcelable.rs::ParcelableError`. -/
inductive ParcelableError where
  | fieldError (msg : String)
  | nestError (msg : String)
  | resolveError (msg : String)
deriving DecidableEq, Repr

/-- The typed configuration tree seen through the `Parcelable` trait
(`src/utils/parcelable.rs` plus the impls in `src/botscript.rs`):
`pfunc` is a `BotFunction` slot (its `resolve` yields `ParcelType::Function`);
`node` is any struct / `HashMap` / `Vec` whose `get_field` looks a child up
by name (a `Vec` by its decimal index) and resolves it; `popt` is an
`Option` (`resolve` descends into `Some` and fails on `None`); `pother` is
an opaque leaf resolving to `ParcelType::Other` (e.g. `String`,
`NotificationFilter::All`). -/
inductive ParcelNode where
  | pfunc (f : FunctionMarker)
  | node (fields : List (String × ParcelNode))
  | popt (o : Option ParcelNode)
  | pother

/-- The classification `Parcelable::get_field`/`resolve` hand back:
`ParcelType::Function`, `ParcelType::Parcelable` or `ParcelType::Other`
(the borrowed payloads are positions in the tree, recovered by
`setNested`). -/
inductive NavState where
  | funcSlot
  | parcel (p : ParcelNode)
  | other

/-- `Parcelable::resolve` of a child node: a `BotFunction` resolves to a
function slot, a struct/map/vec to itself as a parcelable, an `Option`
descends (failing on `None`), an opaque leaf resolves to `Other`. -/
def resolveNav : ParcelNode → Except ParcelableError NavState
  | .pfunc _ => .ok .funcSlot
  | .node fs => .ok (.parcel (.node fs))
  | .popt none => .error (.resolveError "Option was None")
  | .popt (some q) => resolveNav q
  | .pother => .ok .other

/-- One `get_field` step of the impls in `src/botscript.rs`: only a
struct/map/vec can be asked for a field; a missing name is a `FieldError`;
a present child is handed to `resolve`. -/
def getFieldNav : ParcelNode → String → Except ParcelableError NavState
  | .node fs, name =>
      match fs.lookup name with
      | some child => resolveNav child
      | none => .error (.fieldError name)
  | _, name => .error (.fieldError name)

/-- Rust's `str::split('.')` over the character list: every maximal
dot-free run, with empty runs kept (so the empty string yields `[""]`,
exactly as `"".split('.')` does). -/
def splitDots : List Char → List (List Char)
  | [] => [[]]
  | c :: cs =>
      if c = '.' then [] :: splitDots cs
      else
        match splitDots cs with
        | [] => [[c]]
        | w :: ws => (c :: w) :: ws

/-- The dotted path split into its field names (`name.split('.')`). -/
def splitPath (name : String) : List String :=
  (splitDots name.data).map List.asString

/-- `src/utils/parcelable.rs::Parcelable::get_nested`: split the dotted path
and fold `get_field` over it, starting from the root as a parcelable;
stepping from a non-parcelable state is a `NestError`. -/
def getNested (p : ParcelNode) (name : String) : Except ParcelableError NavState :=
  (splitPath name).foldl
    (fun s field =>
      match s with
      | .ok (.parcel q) => getFieldNav q field
      | .ok _ => .error (.nestError field)
      | .error e => .error e)
    (.ok (.parcel p))

/-- The write-back through the mutable reference `get_nested` returns: when
the path resolves (through `Option`s) to a `BotFunction` slot, replace its
marker (`FunctionMarker::set_js_function`); anywhere the navigation would
not reach a function slot the tree is unchanged. -/
def setResolved : ParcelNode → List String → FunctionMarker → ParcelNode
  | .pfunc _, [], f => .pfunc f
  | .popt (some q), rest, f => .popt (some (setResolved q rest f))
  | .node fs, field :: rest, f =>
      .node (fs.map fun kv => if kv.1 = field then (kv.1, setResolved kv.2 rest f) else kv)
  | p, _, _ => p

/-- `setNested p name f` — the in-place update `deserialize_js` performs at a
dotted path. -/
def setNested (p : ParcelNode) (name : String) (f : FunctionMarker) : ParcelNode :=
  setResolved p (splitPath name) f

/-- The reattachment loop of `src/botscript.rs::DeserializerJS::deserialize_js`
(lines 187–199): for each recorded path→function pair, look the path up in
the typed tree; on failure log and `continue`; when the slot is a function
slot, splice the live handle in; otherwise do nothing. -/
def reattachAll (t : ParcelNode) : List (String × Nat) → ParcelNode
  | [] => t
  | (k, jsf) :: rest =>
      match getNested t k with
      | .error _ => reattachAll t rest
      | .ok .funcSlot => reattachAll (setNested t k (.function jsf)) rest
      | .ok _ => reattachAll t rest

/-- `src/botscript.rs::DeserializerJS::deserialize_js`, from the point where
the structurally deserialized tree `t` and the recorded path→function map
exist: the reattachment loop never aborts and the function returns `Ok` of
the reattached tree. -/
def deserialize_js (t : ParcelNode) (fnMap : List (String × Nat)) :
    Except ScriptError ParcelNode :=
  .ok (reattachAll t fnMap)

/-! ## Instance supervisor (`src/bot_manager.rs`) -/

/-- `src/db/bots.rs::BotInstance` — the persisted desired-instance record
(fields used by `dispatch`). -/
structure BotInstance where
  name : String
  token : String
  script : String
  restart_flag : Bool
deriving DecidableEq, Repr

/-- The observable state of a spawned OS thread: still running, or finished
with `Ok`, an error return, or a panic (what `is_finished`/`join`
distinguish). -/
inductive ThreadState where
  | running
  | finishedOk
  | finishedErr
  | panicked
deriving DecidableEq, Repr

/-- `JoinHandle::is_finished`. -/
def threadIsFinished : ThreadState → Bool
  | .running => false
  | _ => true

/-- `src/bot_manager.rs::clear_finished_thread`: keep a running thread,
clear (after joining and logging) a finished one. -/
def clear_finished_thread (t : Option ThreadState) : Option ThreadState :=
  t.bind fun th => if threadIsFinished th then none else some th

/-- `src/bot_manager.rs::NotificatorThread`. -/
inductive NotificatorThread where
  | runningT (t : Option ThreadState)
  | doneT
deriving DecidableEq, Repr

/-- `src/bot_manager.rs::check_notificator_done`: a finished notificator
thread that returned `Ok(Ok(_))` becomes permanently `Done`; an error
return or a panic clears the slot for restart; anything else is kept. -/
def check_notificator_done : NotificatorThread → NotificatorThread
  | .runningT (some th) =>
      if threadIsFinished th then
        match th with
        | .finishedOk => .doneT
        | _ => .runningT none
      else .runningT (some th)
  | other => other

/-- `src/bot_manager.rs::BotRunner` — the supervisor-local worker record
(the controller and info are irrelevant to the dispatch-loop claims and
kept as the instance name). -/
structure BotRunner where
  name : String
  notificator : NotificatorThread
  thread : Option ThreadState
deriving DecidableEq, Repr

/-- The fallible collaborators `dispatch` calls per instance, as oracles:
`create_bot_runner` (BotController construction: script evaluation etc.),
`spawn_bot_thread` (storage open + thread spawn) and
`spawn_notificator_thread`. -/
structure DispatchEnv where
  create_bot_runner : BotInstance → Except ScriptError BotRunner
  spawn_bot_thread : BotInstance → Except ScriptError ThreadState
  spawn_notificator_thread : BotInstance → Except ScriptError ThreadState

/-- Remove an instance's entry from the pool (`HashMap::remove`), returning
the removed runner, if any, and the remaining pool. -/
def poolRemove (pool : List (String × BotRunner)) (name : String) :
    Option BotRunner × List (String × BotRunner) :=
  (pool.lookup name, pool.filter fun kv => kv.1 ≠ name)

/-- The per-instance body of the reconciliation loop in
`src/bot_manager.rs::BotManager::dispatch` (lines 74–134): drop the worker
on a restart flag, take or create (`?`) the runner, clear a finished
dispatch thread and respawn it (`?`), run the notificator state machine and
respawn its thread (`?`), and re-insert the runner.  Every `?` aborts the
whole call. -/
def dispatchInstance (env : DispatchEnv) (pool : List (String × BotRunner))
    (bi : BotInstance) : Except ScriptError (List (String × BotRunner)) := do
  let pool := if bi.restart_flag then (poolRemove pool bi.name).2 else pool
  let (found, pool) := poolRemove pool bi.name
  let bot_runner ← match found with
    | some br => pure br
    | none => env.create_bot_runner bi
  let thread := clear_finished_thread bot_runner.thread
  let thread ← match thread with
    | some t => pure (some t)
    | none => do
        let t ← env.spawn_bot_thread bi
        pure (some t)
  let notificator := check_notificator_done bot_runner.notificator
  let notificator ← match notificator with
    | .doneT => pure NotificatorThread.doneT
    | .runningT (some t) => pure (NotificatorThread.runningT (some t))
    | .runningT none => do
        let t ← env.spawn_notificator_thread bi
        pure (NotificatorThread.runningT (some t))
  pure ((bi.name, { bot_runner with thread := thread, notificator := notificator }) :: pool)

/-- One reconciliation tick of `dispatch`: the `for bi in instances` loop.
An `Err` from any instance's body propagates out of the whole tick (and out
of `dispatch`, whose only `return` path is this error propagation). -/
def dispatchTick (env : DispatchEnv) (instances : List BotInstance)
    (pool : List (String × BotRunner)) : Except ScriptError (List (String × BotRunner)) :=
  instances.foldlM (fun pool bi => dispatchInstance env pool bi) pool

/-! ## Concrete configurations used by counterexamples and witnesses -/

/-- A rule firing daily at 12:00. -/
def ruleNoon : BotNotification := ⟨.specific ⟨12, 0⟩, .all, .text "daily"⟩

/-- A configuration (UTC timezone, created at the epoch) holding only the
daily-noon rule. -/
def cfgNoon : RunnerConfig :=
  { config := ⟨(), 0⟩, dialog := ⟨[], [], [], []⟩, notifications := [ruleNoon],
    created_at := 0 }

/-- Every-minute delta rule, recipient `all`. -/
def ruleA : BotNotification := ⟨.delta 0 1, .all, .text "a"⟩

/-- Every-minute delta rule, distinct from `ruleA` by its filter. -/
def ruleB : BotNotification := ⟨.delta 0 1, .random 3, .text "b"⟩

/-- Every-two-minutes delta rule. -/
def ruleC : BotNotification := ⟨.delta 0 2, .all, .text "c"⟩

/-- Zero-period delta rule (`left_time` is 0, so it is always filtered out). -/
def ruleD : BotNotification := ⟨.delta 0 0, .all, .text "d"⟩

/-- Desired instance `x`, whose startup will fail in `failingEnv`. -/
def biX : BotInstance := ⟨"x", "tokx", "scriptx", false⟩

/-- Desired instance `y`, which starts fine in `failingEnv`. -/
def biY : BotInstance := ⟨"y", "toky", "scripty", false⟩

/-- A collaborator environment where constructing the runner for instance
`"x"` fails (say, its script does not evaluate) and everything else
succeeds. -/
def failingEnv : DispatchEnv :=
  { create_bot_runner := fun bi =>
      if bi.name = "x" then .error (.botFunctionError "failed to start")
      else .ok ⟨bi.name, .runningT none, none⟩
    spawn_bot_thread := fun _ => .ok .running
    spawn_notificator_thread := fun _ => .ok .running }

/-- A command message as structural deserialization leaves it when the
script's `start` entry carried no explicit fields. -/
def bmStart : BotMessage := ⟨none, false, none, none, none, none⟩

/-- A configuration exposing the single command `start` (no explicit
literal). -/
def cfgCmd : RunnerConfig :=
  { config := ⟨(), 0⟩, dialog := ⟨[("start", bmStart)], [], [], []⟩,
    notifications := [], created_at := 0 }

/-- The typed tree for a script exposing
`{dialog:{commands:{start:{handler: function(){...}}}}}` after the
structural pass: the handler slot holds the inert placeholder. -/
def treeStart : ParcelNode :=
  .node [("dialog", .node [("commands", .node [("start",
    .node [("handler", .popt (some (.pfunc (.strTemplate "somefunc"))))])])])]

/-! ## Arithmetic helper lemmas for the delta scheduler -/

theorem deltaPeriodMinutes_eq {dh dm : Nat} (h : dm + dh * 60 < 2 ^ 32) :
    deltaPeriodMinutes dh dm = dm + dh * 60 :=
  Nat.mod_eq_of_lt h

/-- Unfolding `when_next` for a delta rule with nonzero period. -/
theorem when_next_delta_pos (dh dm : Nat) (start now : Int)
    (hpos : deltaPeriodMinutes dh dm ≠ 0) :
    NotificationTime.when_next (.delta dh dm) start now =
      now - ((now - start).natAbs : Int) % ((deltaPeriodMinutes dh dm : Int) * 60)
        + (deltaPeriodMinutes dh dm : Int) * 60 := by
  simp only [NotificationTime.when_next]
  rw [if_neg]
  simpa using hpos

/-- Minimality step for the delta scheduler: `d - d % P + P` is a lower
bound for every multiple of `P` strictly above `d`. -/
theorem delta_step_min (P d e : Int) (hP : 0 < P) (hlt : d < e) (hdvd : P ∣ e) :
    d - d % P + P ≤ e := by
  obtain ⟨k, rfl⟩ := hdvd
  have h1 : P * (d / P) + d % P = d := Int.ediv_add_emod d P
  have h2 : 0 ≤ d % P := Int.emod_nonneg d (ne_of_gt hP)
  have h3 : d / P < k := by
    by_contra hc
    push_neg at hc
    have hm : P * k ≤ P * (d / P) := mul_le_mul_of_nonneg_left hc (le_of_lt hP)
    omega
  have h4 : P * (d / P + 1) ≤ P * k := mul_le_mul_of_nonneg_left (by omega) (le_of_lt hP)
  have h5 : P * (d / P + 1) = P * (d / P) + P := by ring
  omega

/-- Two multiples of `P` (relative to the same base) lying in a window of
width `< P` are equal. -/
theorem dvd_window_eq (P a b : Int) (hP : 0 < P) (hd : P ∣ a - b)
    (hlow : -P < a - b) (hhigh : a - b < P) : a = b := by
  obtain ⟨k, hk⟩ := hd
  rcases lt_trichotomy k 0 with h | h | h
  · have h2 : P * k ≤ P * (-1) := mul_le_mul_of_nonneg_left (by omega) (le_of_lt hP)
    have h3 : P * (-1) = -P := by ring
    omega
  · subst h
    simp only [mul_zero] at hk
    omega
  · have h2 : P * 1 ≤ P * k := mul_le_mul_of_nonneg_left (by omega) (le_of_lt hP)
    have h3 : P * 1 = P := by ring
    omega

/-! ## Claims -/

/-- **C1** (counterexample).  The claim asserts that for a delta rule with
period `P > 0` and *every* pair `(start_time, now)`, `when_next` returns
the smallest time `≥ start_time` that is both `≥ now` and an exact
multiple of `P` minutes after `start_time`.  Both parts fail on the code:
at `(start, now) = (100, 0)` with `P = 1` minute, `when_next` yields `20`,
whose offset from `start` (`-80` seconds) is not a multiple of 60 seconds;
and at `(start, now) = (0, 0)`, `when_next` yields `60` although `0`
itself is `≥ start`, `≥ now` and an exact multiple of the period — so the
returned value is not the smallest such time. -/
theorem c1_counterexample :
    NotificationTime.when_next (.delta 0 1) 100 0 = 20 ∧
    ¬ ((60 : Int) ∣ (NotificationTime.when_next (.delta 0 1) 100 0 - 100)) ∧
    NotificationTime.when_next (.delta 0 1) 0 0 = 60 ∧
    ((0 : Int) ≤ 0 ∧ (60 : Int) ∣ ((0 : Int) - 0) ∧
      (0 : Int) < NotificationTime.when_next (.delta 0 1) 0 0) := by
  refine ⟨by decide, ?_, by decide, by decide, by decide, by decide⟩
  have h : NotificationTime.when_next (.delta 0 1) 100 0 - 100 = -80 := by decide
  rw [h]
  decide

/-- **C1** (amended).  For a delta rule whose period
`P = delta_hours * 60 + delta_minutes` (in minutes, without `u32`
overflow): if `P = 0`, `when_next(start_time, now)` returns `now`; and if
`P > 0` then, *provided `start_time ≤ now`*, `when_next(start_time, now)`
is strictly greater than `now`, its offset from `start_time` is an exact
whole multiple of `P` minutes, and it is the smallest time strictly
greater than `now` with that offset property (so when `now` itself lies
on the grid the rule fires a full period later, not at `now`; and for
`now < start_time` neither the multiple-of-`P` property nor minimality
holds — see the counterexample). -/
theorem c1_delta_period_properties (dh dm : Nat) (start now : Int)
    (hsmall : dm + dh * 60 < 2 ^ 32) :
    (dm + dh * 60 = 0 →
      NotificationTime.when_next (.delta dh dm) start now = now) ∧
    (0 < dm + dh * 60 → start ≤ now →
      now < NotificationTime.when_next (.delta dh dm) start now ∧
      ((dm + dh * 60 : Nat) : Int) * 60 ∣
        (NotificationTime.when_next (.delta dh dm) start now - start) ∧
      ∀ t : Int, now < t → ((dm + dh * 60 : Nat) : Int) * 60 ∣ (t - start) →
        NotificationTime.when_next (.delta dh dm) start now ≤ t) := by
  constructor
  · intro h0
    simp only [NotificationTime.when_next, deltaPeriodMinutes_eq hsmall, h0]
    norm_num
  · intro hpos hsn
    have hne : deltaPeriodMinutes dh dm ≠ 0 := by
      rw [deltaPeriodMinutes_eq hsmall]; omega
    rw [when_next_delta_pos dh dm start now hne, deltaPeriodMinutes_eq hsmall]
    have hcast : ((now - start).natAbs : Int) = now - start :=
      Int.natAbs_of_nonneg (by omega)
    rw [hcast]
    set P : Int := ((dm + dh * 60 : Nat) : Int) * 60 with hPdef
    have hP : 0 < P := by omega
    have hmod_nonneg : 0 ≤ (now - start) % P := Int.emod_nonneg _ (ne_of_gt hP)
    have hmod_lt : (now - start) % P < P := Int.emod_lt_of_pos _ hP
    have h1 : P * ((now - start) / P) + (now - start) % P = now - start :=
      Int.ediv_add_emod _ P
    refine ⟨by omega, ⟨(now - start) / P + 1, ?_⟩, ?_⟩
    · rw [mul_add, mul_one]
      omega
    · intro t ht hdvd
      have h2 := delta_step_min P (now - start) (t - start) hP (by omega) hdvd
      omega

/-- **C1** witness: the amended delta properties evaluated at a 1-minute
rule with `start = 0`, `now = 30`. -/
theorem c1_delta_period_properties_witness :
    (1 + 0 * 60 < 2 ^ 32) ∧ (0 < 1 + 0 * 60) ∧ ((0 : Int) ≤ 30) ∧
    (30 : Int) < NotificationTime.when_next (.delta 0 1) 0 30 :=
  ⟨by decide, by decide, by decide,
    ((c1_delta_period_properties 0 1 0 30 (by decide)).2 (by decide) (by decide)).1⟩

/-- **C5** (code violates the stated invariant).  `when_next` is *not*
monotonic in `now`.  Fixed-daily rule at 12:00: at `now = 11:59:59`
(43199 s) it returns 12:00:59 (43259 s, inheriting the seconds of `now`),
while one second later at `now = 12:00:00` (43200 s) it returns 12:00:00 —
an earlier fire time for a later `now`.  Delta rule of 1 minute with
`start = 100`: at `now = 40` it returns `100`, at `now = 41` it returns
`42`. -/
theorem c5_monotonicity_violated :
    ((43199 : Int) ≤ 43200 ∧
      NotificationTime.when_next (.specific ⟨12, 0⟩) 0 43199 = 43259 ∧
      NotificationTime.when_next (.specific ⟨12, 0⟩) 0 43200 = 43200 ∧
      ¬ (NotificationTime.when_next (.specific ⟨12, 0⟩) 0 43199 ≤
          NotificationTime.when_next (.specific ⟨12, 0⟩) 0 43200)) ∧
    ((40 : Int) ≤ 41 ∧
      NotificationTime.when_next (.delta 0 1) 100 40 = 100 ∧
      NotificationTime.when_next (.delta 0 1) 100 41 = 42 ∧
      ¬ (NotificationTime.when_next (.delta 0 1) 100 40 ≤
          NotificationTime.when_next (.delta 0 1) 100 41)) := by
  decide

/-- **C4** (counterexample).  The claim quantifies over *every*
fixed-daily-time rule, but `SpecificTime` is built without range checks
(`SpecificTime::new`, the `Verbose { hour, minutes }` deserialization),
and for an out-of-range hour `with_hour` fails and the code silently keeps
`now`'s own hour.  For the rule `25:00` at `now = 11:59:59` the result is
day 1, 11:00:59 — not at the configured hour on any day. -/
theorem c4_counterexample :
    NotificationTime.when_next (.specific ⟨25, 0⟩) 0 43199 = 126059 ∧
    hourOf (NotificationTime.when_next (.specific ⟨25, 0⟩) 0 43199) = 11 ∧
    (11 : Int) ≠ 25 := by
  decide

/-- **C4** (amended).  For every fixed-daily-time rule,
`when_next(start_time, now) ≥ now` holds unconditionally; and *provided
the configured clock time is in range* (`hour < 24`, `minutes < 60`),
`when_next` is at the configured hour and minute (with `now`'s seconds),
on the same calendar day as `now` when the configured minute of day has
not yet passed (`now`'s minute-of-day ≤ configured), and exactly one day
later otherwise. -/
theorem c4_specific_when_next (t : SpecificTime) (start now : Int) :
    now ≤ NotificationTime.when_next (.specific t) start now ∧
    (t.hour < 24 → t.minutes < 60 →
      hourOf (NotificationTime.when_next (.specific t) start now) = t.hour ∧
      minuteOf (NotificationTime.when_next (.specific t) start now) = t.minutes ∧
      dayIndex (NotificationTime.when_next (.specific t) start now) =
        dayIndex now +
          (if ((t.hour * 60 + t.minutes : Nat) : Int) < minuteOfDay now then 1 else 0)) := by
  obtain ⟨h, m⟩ := t
  simp only [NotificationTime.when_next, withHourOr, withMinuteOr, hourOf, minuteOf,
    minuteOfDay, dayIndex, dayStart, timeOfDay, secsPerDay]
  constructor
  · split_ifs <;> omega
  · intro hh hm
    split_ifs <;> omega

/-- **C4** witness: the amended fixed-time properties evaluated at the
12:00 rule, `start = 0`, `now = 11:59:59` (43199 s). -/
theorem c4_specific_when_next_witness :
    (43199 : Int) ≤ NotificationTime.when_next (.specific ⟨12, 0⟩) 0 43199 ∧
    (12 < 24 ∧ 0 < 60) ∧
    hourOf (NotificationTime.when_next (.specific ⟨12, 0⟩) 0 43199) = 12 :=
  ⟨(c4_specific_when_next ⟨12, 0⟩ 0 43199).1, ⟨by decide, by decide⟩,
    ((c4_specific_when_next ⟨12, 0⟩ 0 43199).2 (by decide) (by decide)).1⟩

/-- **C6** (confirmed).  For every rule and every `(start_time, now)`,
`left_time` is `when_next - now` clamped to zero when negative (the code's
`to_std().unwrap_or(0)`), truncated to whole seconds (the identity at the
model's one-second granularity); in particular it is never negative. -/
theorem c6_left_time_clamped (r : BotNotification) (start now : Int) :
    (r.left_time start now : Int) = max (r.time.when_next start now - now) 0 ∧
    (0 : Int) ≤ (r.left_time start now : Int) := by
  refine ⟨?_, by positivity⟩
  by_cases h : r.time.when_next start now - now < 0
  · have h0 : r.left_time start now = 0 := by
      unfold BotNotification.left_time timeDeltaToStd
      simp [h]
    rw [h0]
    omega
  · have h0 : r.left_time start now = (r.time.when_next start now - now).toNat := by
      unfold BotNotification.left_time timeDeltaToStd
      simp [h]
    rw [h0]
    omega

/-- **C2** (confirmed).  `get_nearest_notifications`, on the rule list and
the timezone-shifted pair `(creation, now)`: every rule whose `left_time`
is ≤ 1 second is excluded; when some rule remains the result is a batch
whose `wait_for` is the minimum `left_time` among the remaining rules and
whose rules are exactly those tying that minimum; otherwise `none`.
(The spec's illustrative instance — left_times `[5s, 5s, 9s, filtered]`
giving a batch of the two 5-second rules — is an instance of the tie
clause; see the witness for a realizable tie, the code's schedules keep
all left_times of one configuration congruent modulo 60 seconds, so `5s`
and `9s` cannot actually co-occur.) -/
theorem c2_nearest_batch (rules : List BotNotification) (start now : Int) :
    ((rules.filter fun r => 1 < r.left_time start now) = [] →
      nearestNotifications rules start now = none) ∧
    ((rules.filter fun r => 1 < r.left_time start now) ≠ [] →
      ∃ w batch, nearestNotifications rules start now = some (w, batch) ∧
        (∃ r, r ∈ rules.filter (fun r => 1 < r.left_time start now) ∧
          r.left_time start now = w) ∧
        (∀ r ∈ rules.filter (fun r => 1 < r.left_time start now),
          w ≤ r.left_time start now) ∧
        (∀ r, r ∈ batch ↔
          r ∈ rules ∧ 1 < r.left_time start now ∧ r.left_time start now = w)) := by
  letI : IsTotal BotNotification
      (fun a b => a.left_time start now ≤ b.left_time start now) :=
    ⟨fun a b => le_total _ _⟩
  letI : IsTrans BotNotification
      (fun a b => a.left_time start now ≤ b.left_time start now) :=
    ⟨fun _ _ _ => le_trans⟩
  have hperm := List.perm_insertionSort
      (fun a b : BotNotification => a.left_time start now ≤ b.left_time start now)
      (rules.filter fun r => 1 < r.left_time start now)
  have hsorted := List.sorted_insertionSort
      (fun a b : BotNotification => a.left_time start now ≤ b.left_time start now)
      (rules.filter fun r => 1 < r.left_time start now)
  constructor
  · intro hnil
    simp only [nearestNotifications, hnil, List.insertionSort]
  · intro hne
    rcases hord : (rules.filter fun r => 1 < r.left_time start now).insertionSort
        (fun a b => a.left_time start now ≤ b.left_time start now) with _ | ⟨r0, rest⟩
    · rw [hord] at hperm
      exact absurd hperm.symm.eq_nil hne
    · rw [hord] at hperm hsorted
      have hr0mem : r0 ∈ rules.filter fun r => 1 < r.left_time start now :=
        hperm.mem_iff.mp (List.mem_cons_self r0 rest)
      refine ⟨r0.left_time start now,
        (r0 :: rest).filter (fun n => n.left_time start now = r0.left_time start now),
        ?_, ⟨r0, hr0mem, rfl⟩, ?_, ?_⟩
      · simp only [nearestNotifications]
        rw [hord]
      · intro r hr
        rcases List.mem_cons.mp (hperm.mem_iff.mpr hr) with h | h
        · exact le_of_eq (by rw [h])
        · exact (List.sorted_cons.mp hsorted).1 r h
      · intro r
        have hmemf : r ∈ rules.filter (fun r => 1 < r.left_time start now) ↔
            r ∈ rules ∧ 1 < r.left_time start now := by
          simp [List.mem_filter]
        constructor
        · intro hrb
          have := List.mem_filter.mp hrb
          have h1 : r ∈ rules.filter (fun r => 1 < r.left_time start now) :=
            hperm.mem_iff.mp this.1
          have h2 : r.left_time start now = r0.left_time start now := by
            simpa using this.2
          exact ⟨(hmemf.mp h1).1, (hmemf.mp h1).2, h2⟩
        · intro ⟨ha, hb, hc⟩
          refine List.mem_filter.mpr ⟨hperm.mem_iff.mpr (hmemf.mpr ⟨ha, hb⟩), by simpa using hc⟩

/-- **C2** witness: four rules at `start = 0`, `now = 55` with left_times
`[5s, 65s, 5s, 0s(filtered)]` — the batch waits 5 seconds and holds
exactly the two 5-second rules. -/
theorem c2_nearest_batch_witness :
    (([ruleA, ruleC, ruleB, ruleD].filter fun r => 1 < r.left_time 0 55) ≠ []) ∧
    (∃ w batch, nearestNotifications [ruleA, ruleC, ruleB, ruleD] 0 55 = some (w, batch) ∧
      (∃ r, r ∈ [ruleA, ruleC, ruleB, ruleD].filter (fun r => 1 < r.left_time 0 55) ∧
        r.left_time 0 55 = w) ∧
      (∀ r ∈ [ruleA, ruleC, ruleB, ruleD].filter (fun r => 1 < r.left_time 0 55),
        w ≤ r.left_time 0 55) ∧
      (∀ r, r ∈ batch ↔
        r ∈ [ruleA, ruleC, ruleB, ruleD] ∧ 1 < r.left_time 0 55 ∧
          r.left_time 0 55 = w)) :=
  ⟨by decide, (c2_nearest_batch [ruleA, ruleC, ruleB, ruleD] 0 55).2 (by decide)⟩

/-- **C3** (code bug).  The doc comment on `get_nearest_notifications`
guarantees that once it returns `None` every later call returns `None`.
With the daily-noon configuration the call at `now = 12:00:30` of day 0
(43230 s) returns `None` (the rule's `left_time` is 0 and is filtered
out), yet the later call at `now = 13:00:00` (46800 s) returns a batch
firing next day at noon — refuting the comment's guarantee. -/
theorem c3_none_is_not_forever :
    cfgNoon.get_nearest_notifications 43230 = none ∧
    cfgNoon.get_nearest_notifications 46800 = some (82800, [ruleNoon]) ∧
    (43230 : Int) < 46800 :=
  ⟨rfl, rfl, by decide⟩

/-- `update_defaults` only touches the `meta` field; the literal is kept. -/
theorem update_defaults_literal (bm : BotMessage) :
    bm.update_defaults.literal = bm.literal := by
  unfold BotMessage.update_defaults
  cases hm : bm.meta with
  | some b => rfl
  | none =>
      cases hl : bm.literal with
      | none => exact hl
      | some l => by_cases hls : l = "start" <;> simp [hls, hl]

/-- **C7** (confirmed).  `get_command_message` returns `None` exactly for
commands absent from `dialog.commands`; for a present command it returns
the stored message with the literal defaulted to the command name when the
script gave none, and the explicit literal kept otherwise (both cases in
`bm.literal.getD command`). -/
theorem c7_get_command_message (rc : RunnerConfig) (command : String) :
    (rc.dialog.commands.lookup command = none →
      rc.get_command_message command = none) ∧
    (∀ bm, rc.dialog.commands.lookup command = some bm →
      ∃ m, rc.get_command_message command = some m ∧
        m.literal = some (bm.literal.getD command)) := by
  constructor
  · intro h
    simp [RunnerConfig.get_command_message, h]
  · intro bm h
    refine ⟨(bm.fill_literal command).update_defaults, ?_, ?_⟩
    · simp [RunnerConfig.get_command_message, h]
    · rw [update_defaults_literal]
      unfold BotMessage.fill_literal
      cases hl : bm.literal <;> simp [hl, Option.or]

/-- **C7** witness: a configuration whose script exposed `start` without a
literal; `get_command_message "start"` yields `literal = some "start"`. -/
theorem c7_get_command_message_witness :
    cfgCmd.dialog.commands.lookup "start" = some bmStart ∧
    (∃ m, cfgCmd.get_command_message "start" = some m ∧
      m.literal = some (bmStart.literal.getD "start")) :=
  ⟨rfl, (c7_get_command_message cfgCmd "start").2 bmStart rfl⟩

/-- **C8** (confirmed).  In `deserialize_js`'s reattachment loop: a
recorded dotted path on which `get_nested` fails is logged and skipped —
the whole load still returns `Ok` and behaves as if that path were absent
(so the remaining paths are still reattached); and a callable slot still
holding the inert `StrTemplate` placeholder fails only when `call_args`
is invoked, with `BotFunctionError`, never during the load itself. -/
theorem c8_bad_path_skipped (t : ParcelNode) (fnMap rest : List (String × Nat))
    (bad : String) (g : Nat) (e : ParcelableError) (s : String)
    (callEnv : Nat → List Nat → Except ScriptError Nat) (args : List Nat) :
    (∃ t2, deserialize_js t fnMap = Except.ok t2) ∧
    (getNested t bad = .error e →
      deserialize_js t ((bad, g) :: rest) = deserialize_js t rest) ∧
    (BotFunction.call_args ⟨.strTemplate s⟩ callEnv args =
      .error (.botFunctionError "Js Function is not defined")) := by
  refine ⟨⟨reattachAll t fnMap, rfl⟩, ?_, rfl⟩
  intro h
  have hstep : reattachAll t ((bad, g) :: rest) =
      match getNested t bad with
      | .error _ => reattachAll t rest
      | .ok .funcSlot => reattachAll (setNested t bad (.function g)) rest
      | .ok _ => reattachAll t rest := rfl
  show Except.ok (reattachAll t ((bad, g) :: rest)) =
    Except.ok (reattachAll t rest)
  rw [hstep, h]

/-- **C8** witness: a typed tree with the `start` handler slot; the path
`dialog.commands.absent` cannot be resolved (`FieldError`), and the load
over the map containing it equals the load over the map without it. -/
theorem c8_bad_path_skipped_witness :
    getNested treeStart "dialog.commands.absent" = .error (.fieldError "absent") ∧
    deserialize_js treeStart
        [("dialog.commands.absent", 3), ("dialog.commands.start.handler", 7)] =
      deserialize_js treeStart [("dialog.commands.start.handler", 7)] :=
  ⟨rfl,
    (c8_bad_path_skipped treeStart [] [("dialog.commands.start.handler", 7)]
      "dialog.commands.absent" 3 (.fieldError "absent") "s"
      (fun _ _ => .ok 0) []).2.1 rfl⟩

/-- **C9** (code bug).  In `BotManager::dispatch`, `create_bot_runner` is
called with `?`: an error while starting one instance aborts the whole
tick and the whole `dispatch` loop.  With instance `x` failing to start
and instance `y` healthy, the tick over `[x, y]` returns the error (so `y`
is never reconciled and the supervisor loop terminates), although the tick
over `[y]` alone succeeds. -/
theorem c9_one_crash_aborts_tick :
    dispatchTick failingEnv [biX, biY] [] =
      .error (.botFunctionError "failed to start") ∧
    dispatchTick failingEnv [biY] [] =
      .ok [("y", ⟨"y", .runningT (some .running), some .running⟩)] :=
  ⟨rfl, rfl⟩

/-- One unfolding of the botscript fixed-time loop at fuel 2. -/
theorem botSpecificLoop_two (now est : Int) :
    botSpecificLoop now est 2 =
      if est < now then
        (if est + secsPerDay < now then none else some (est + secsPerDay))
      else some est := rfl

/-- The botscript fixed-time loop agrees with the modular scheduler for
every fixed-daily rule: two units of fuel always suffice. -/
theorem botSpecific_eq_when_next (ts : SpecificTime) (start now : Int) :
    botWhenNext (.specific ts) start now 2 =
      some (NotificationTime.when_next (.specific ts) start now) := by
  obtain ⟨h, m⟩ := ts
  simp only [botWhenNext, NotificationTime.when_next]
  rw [botSpecificLoop_two]
  simp only [withHourOr, withMinuteOr, dayStart, timeOfDay, secsPerDay]
  split_ifs <;> (try simp only [Option.some.injEq]) <;> omega

/-- The botscript delta loop, started strictly below `now + 1` with a
positive period and enough fuel, returns the unique on-grid value in
`[now + 1, now + p)`. -/
theorem botDeltaLoop_reaches (p now : Int) (_hp : 0 < p) :
    ∀ (fuel : Nat) (est : Int), est < now + 1 → now + 1 - est ≤ p * (fuel : Int) →
      ∃ r, botDeltaLoop p now est (fuel + 1) = some r ∧
        now + 1 ≤ r ∧ p ∣ (r - est) ∧ r - p < now + 1 := by
  intro fuel
  induction fuel with
  | zero =>
      intro est h1 h2
      simp only [Nat.cast_zero, mul_zero] at h2
      exact absurd h1 (by omega)
  | succ f ih =>
      intro est h1 h2
      have hstep : botDeltaLoop p now est (f + 1 + 1) =
          if est < now + 1 then botDeltaLoop p now (est + p) (f + 1) else some est := rfl
      rw [hstep, if_pos h1]
      by_cases hc : est + p < now + 1
      · have hexp : p * ((f : Int) + 1) = p * (f : Int) + p := by ring
        have h2' : now + 1 - (est + p) ≤ p * (f : Int) := by
          push_cast at h2
          omega
        obtain ⟨r, hr, h3, h4, h5⟩ := ih (est + p) hc h2'
        refine ⟨r, hr, h3, ?_, h5⟩
        obtain ⟨k, hk⟩ := h4
        exact ⟨k + 1, by rw [mul_add, mul_one]; omega⟩
      · have hstep2 : botDeltaLoop p now (est + p) (f + 1) =
            if est + p < now + 1 then botDeltaLoop p now (est + p + p) f
            else some (est + p) := rfl
        rw [hstep2, if_neg hc]
        exact ⟨est + p, rfl, by omega, ⟨1, by ring⟩, by omega⟩

/-- With a zero period and a start below `now + 1`, the botscript delta
loop never terminates: it returns `none` at every fuel. -/
theorem botDeltaLoop_zero_stuck (now est : Int) (h : est < now + 1) :
    ∀ fuel, botDeltaLoop 0 now est fuel = none := by
  intro fuel
  induction fuel with
  | zero => rfl
  | succ f ih =>
      have hstep : botDeltaLoop 0 now est (f + 1) =
          if est < now + 1 then botDeltaLoop 0 now (est + 0) f else some est := rfl
      rw [hstep, if_pos h, add_zero, ih]

/-- **C10** (amended).  The two coexisting `when_next` implementations
agree for every fixed-daily rule; for delta rules with a positive period
they agree whenever `start_time ≤ now` (the loop-based one terminating
with enough fuel); but they are *not* equivalent in general: for a zero
period the loop-based one diverges (returns `none` at every fuel) while
the modular one returns `now`, and for `now < start_time` they disagree
(see the counterexample). -/
theorem c10_schedulers_agree (ts : SpecificTime) (dh dm : Nat) (start now : Int)
    (hsmall : dm + dh * 60 < 2 ^ 32) :
    (botWhenNext (.specific ts) start now 2 =
      some (NotificationTime.when_next (.specific ts) start now)) ∧
    (0 < dm + dh * 60 → start ≤ now →
      ∃ fuel, botWhenNext (.delta dh dm) start now fuel =
        some (NotificationTime.when_next (.delta dh dm) start now)) ∧
    (dm + dh * 60 = 0 → start ≤ now →
      ∀ fuel, botWhenNext (.delta dh dm) start now fuel = none) := by
  have hpm : deltaPeriodMinutes dh dm = dm + dh * 60 := deltaPeriodMinutes_eq hsmall
  refine ⟨botSpecific_eq_when_next ts start now, ?_, ?_⟩
  · intro hpos hsn
    set p : Int := ((deltaPeriodMinutes dh dm : Nat) : Int) * 60 with hpdef
    have hp : 0 < p := by omega
    have hfuel : now + 1 - start ≤ p * (((now + 1 - start).toNat : Nat) : Int) := by
      have h1 : (((now + 1 - start).toNat : Nat) : Int) = now + 1 - start := by omega
      rw [h1]
      exact le_mul_of_one_le_left (by omega) (by omega)
    obtain ⟨r, hr, h3, h4, h5⟩ :=
      botDeltaLoop_reaches p now hp (now + 1 - start).toNat start (by omega) hfuel
    refine ⟨(now + 1 - start).toNat + 1, ?_⟩
    have hbw : botWhenNext (.delta dh dm) start now ((now + 1 - start).toNat + 1) =
        botDeltaLoop p now start ((now + 1 - start).toNat + 1) := rfl
    rw [hbw, hr]
    have hwn := when_next_delta_pos dh dm start now (by omega)
    have hcast : ((now - start).natAbs : Int) = now - start :=
      Int.natAbs_of_nonneg (by omega)
    have hw_eq : NotificationTime.when_next (.delta dh dm) start now =
        now - (now - start) % p + p := by
      rw [hwn, hcast]
    have hmod_nonneg : 0 ≤ (now - start) % p := Int.emod_nonneg _ (ne_of_gt hp)
    have hmod_lt : (now - start) % p < p := Int.emod_lt_of_pos _ hp
    have hdivmod : p * ((now - start) / p) + (now - start) % p = now - start :=
      Int.ediv_add_emod _ p
    have hdw : p ∣ (now - (now - start) % p + p) - start :=
      ⟨(now - start) / p + 1, by rw [mul_add, mul_one]; omega⟩
    have hdiff : p ∣ r - (now - (now - start) % p + p) := by
      have hsub := dvd_sub h4 hdw
      have heq : r - start - ((now - (now - start) % p + p) - start) =
          r - (now - (now - start) % p + p) := by ring
      rwa [heq] at hsub
    have hr_eq : r = now - (now - start) % p + p :=
      dvd_window_eq p r _ hp hdiff (by omega) (by omega)
    rw [hw_eq, hr_eq]
  · intro h0 hsn fuel
    have hz : ((deltaPeriodMinutes dh dm : Nat) : Int) * 60 = 0 := by
      rw [hpm, h0]
      simp
    have hbw : botWhenNext (.delta dh dm) start now fuel =
        botDeltaLoop (((deltaPeriodMinutes dh dm : Nat) : Int) * 60) now start fuel := rfl
    rw [hbw, hz]
    exact botDeltaLoop_zero_stuck now start (by omega) fuel

/-- **C10** witness: the loop and modular delta schedulers agree at a
1-minute rule with `start = 0`, `now = 30`. -/
theorem c10_schedulers_agree_witness :
    (1 + 0 * 60 < 2 ^ 32) ∧ (0 < 1 + 0 * 60) ∧ ((0 : Int) ≤ 30) ∧
    (∃ fuel, botWhenNext (.delta 0 1) 0 30 fuel =
      some (NotificationTime.when_next (.delta 0 1) 0 30)) :=
  ⟨by decide, by decide, by decide,
    (c10_schedulers_agree ⟨0, 0⟩ 0 1 0 30 (by decide)).2.1 (by decide) (by decide)⟩

/-- **C10** (counterexample).  The two `when_next` implementations are not
equivalent: for a 1-minute delta rule with `start = 100` and `now = 41`,
the loop-based scheduler of `botscript.rs` returns `100` (it starts at
`start_time` and never goes below it) while the modular-arithmetic
scheduler of `config/time.rs` returns `42`. -/
theorem c10_counterexample :
    botWhenNext (.delta 0 1) 100 41 5 = some 100 ∧
    NotificationTime.when_next (.delta 0 1) 100 41 = 42 ∧
    (100 : Int) ≠ 42 := by
  decide

end Botfw
